import Mathlib

/-!
Shallow embedding of the per-user knowledge-graph model of
`api/models/kGraph.js` (the merged model file) together with the Mongoose
schema constraints of `api/models/schema/kgraphSchema.js`.

Modelling conventions:
* A Mongoose subdocument id (`_id.toString()`) is a `String` field `id`.
* JS `undefined` is `Option.none`; JS `null` on a string field is also
  `Option.none` (the schema stores both as absent values).
* Every operation is a pure function from the stored graph document to the
  pair (stored graph document after the call, outcome).  A thrown JS error
  is `Except.error`.  Because the Mongo `save` commits *before* the
  embedding-service call, an operation can both mutate the stored document
  and return an error; returning the state separately from the `Except`
  captures this exactly.
* The external embedding service is a boolean parameter `embedOk`: `true`
  means the `axios.post` to the Python service succeeds, `false` means it
  fails (network error / timeout / non-2xx), which the code turns into a
  thrown error.
* Mongoose `save()` validation: `content` is `required: true` on nodes and
  `source`/`target` are `required: true` on edges; for `String` paths the
  required validator rejects `null`, `undefined` and the empty string `""`
  (it does not trim, so `" "` passes).  A failed validation aborts the save,
  leaving the stored document unchanged.
* `mongoose.Types.ObjectId(id)` followed by `String(...)` is modelled as the
  identity on the id string (node ids are produced by `_id.toString()`, so
  the round trip is the identity on every id the system generates).
-/

/-- A knowledge node (`knowledgeNodeSchema`): content, label array,
coordinates and the two provenance fields. -/
structure KNode where
  id : String
  content : String
  label : List String
  x : Int
  y : Int
  source_message_id : Option String
  source_conversation_id : Option String
  deriving Repr, DecidableEq

/-- A knowledge edge (`knowledgeEdgeSchema`): source/target node ids and a
label array. -/
structure KEdge where
  id : String
  source : String
  target : String
  label : List String
  deriving Repr, DecidableEq

/-- One `KGraph` document: `{ userId, nodes, edges }`. -/
structure KGraphDoc where
  userId : String
  nodes : List KNode
  edges : List KEdge
  deriving Repr, DecidableEq

/-- Distinct throw sites of `kGraph.js`, named after what they report. -/
inductive KError where
  | userIdRequired
  | validationFailed
  | embedFailed
  | nodeNotFound
  | edgeNotFound
  | messageNotFound
  | alreadyImported
  | noTempNodes
  | nodeIdsRequired
  deriving Repr, DecidableEq

/-- Boolean success test on an outcome. -/
def isOkB {α : Type} : Except KError α → Bool
  | .ok _ => true
  | .error _ => false

/-- Outcomes with decidable component equality compare decidably. -/
instance {ε α : Type} [DecidableEq ε] [DecidableEq α] :
    DecidableEq (Except ε α) := fun x y =>
  match x, y with
  | .ok a, .ok b =>
    if h : a = b then isTrue (by rw [h])
    else isFalse (by intro hc; cases hc; exact h rfl)
  | .error a, .error b =>
    if h : a = b then isTrue (by rw [h])
    else isFalse (by intro hc; cases hc; exact h rfl)
  | .ok _, .error _ => isFalse (by intro hc; cases hc)
  | .error _, .ok _ => isFalse (by intro hc; cases hc)

/-- JS `v || d` for an optional string (`""` is falsy). -/
def jsOrString (v : Option String) (d : String) : String :=
  match v with
  | none => d
  | some s => if s = "" then d else s

/-- JS `v || d` for an optional number (`0` is falsy). -/
def jsOrInt (v : Option Int) (d : Int) : Int :=
  match v with
  | none => d
  | some n => if n = 0 then d else n

/-- JS `v || null` for an optional string field. -/
def jsOrNull (v : Option String) : Option String :=
  match v with
  | none => none
  | some s => if s = "" then none else some s

/-- The `label` field of a node request body: absent, a single string, or an
array of strings (`Array.isArray(label)`). -/
inductive LabelInput where
  | undef
  | str (s : String)
  | arr (ls : List String)
  deriving Repr, DecidableEq

/-- Request body for `createNode` / `updateNode`
(`{ label, x, y, content, source_message_id, source_conversation_id }`,
every field optional). -/
structure NodePayload where
  label : LabelInput
  x : Option Int
  y : Option Int
  content : Option String
  source_message_id : Option String
  source_conversation_id : Option String
  deriving Repr, DecidableEq

/-- Mongoose required-validation of a node: `content` must be non-empty. -/
def nodeValid (n : KNode) : Bool :=
  n.content != ""

/-- Mongoose required-validation of an edge: `source` and `target` must be
non-empty. -/
def edgeValid (e : KEdge) : Bool :=
  e.source != "" && e.target != ""

/-- `graph.save()` validation of the whole document. -/
def saveValid (g : KGraphDoc) : Bool :=
  g.nodes.all nodeValid && g.edges.all edgeValid

/-- `createNode` label normalisation:
`Array.isArray(label) ? label : (label ? [label] : [])`. -/
def createNodeLabelArr : LabelInput → List String
  | .arr ls => ls
  | .str s => if s = "" then [] else [s]
  | .undef => []

/-- `createNode(userId, { label, x, y, content, source_message_id,
source_conversation_id })`: builds the node, pushes it, saves, then posts the
node to the embedding service.  `newId` is the `_id` Mongo assigns on push. -/
def createNode (embedOk : Bool) (newId : String) (g : KGraphDoc)
    (p : NodePayload) : KGraphDoc × Except KError KNode :=
  let newNode : KNode :=
    { id := newId
      content := jsOrString p.content ""
      label := createNodeLabelArr p.label
      x := jsOrInt p.x 0
      y := jsOrInt p.y 0
      source_message_id := jsOrNull p.source_message_id
      source_conversation_id := jsOrNull p.source_conversation_id }
  let g' := { g with nodes := g.nodes ++ [newNode] }
  if saveValid g' then
    if embedOk then (g', .ok newNode) else (g', .error .embedFailed)
  else
    (g, .error .validationFailed)

/-- The field-by-field partial update of `updateNode` (each field is applied
only when it is `!== undefined`; a string `label` is wrapped as `[label]`). -/
def applyNodeUpdate (p : NodePayload) (n : KNode) : KNode :=
  { id := n.id
    content :=
      match p.content with
      | none => n.content
      | some c => c
    label :=
      match p.label with
      | .undef => n.label
      | .str s => [s]
      | .arr ls => ls
    x :=
      match p.x with
      | none => n.x
      | some v => v
    y :=
      match p.y with
      | none => n.y
      | some v => v
    source_message_id :=
      match p.source_message_id with
      | none => n.source_message_id
      | some v => some v
    source_conversation_id :=
      match p.source_conversation_id with
      | none => n.source_conversation_id
      | some v => some v }

/-- `contentChanged` flag of `updateNode`: set iff `content !== undefined`. -/
def contentChanged (p : NodePayload) : Bool :=
  p.content.isSome

/-- `graph.nodes.id(nodeId)`: first subdocument with the given id. -/
def findNode (nodes : List KNode) (nodeId : String) : Option KNode :=
  nodes.find? (fun n => n.id == nodeId)

/-- Mutating the subdocument returned by `graph.nodes.id(nodeId)` updates the
first node with that id in the array. -/
def updateFirstNode (nodes : List KNode) (nodeId : String)
    (f : KNode → KNode) : List KNode :=
  match nodes with
  | [] => []
  | n :: rest =>
    if n.id == nodeId then f n :: rest
    else n :: updateFirstNode rest nodeId f

/-- `updateNode(userId, nodeId, body)`: find the node, apply the provided
fields, save, and re-embed when `content` changed. -/
def updateNode (embedOk : Bool) (g : KGraphDoc) (nodeId : String)
    (p : NodePayload) : KGraphDoc × Except KError KNode :=
  match findNode g.nodes nodeId with
  | none => (g, .error .nodeNotFound)
  | some n =>
    let updated := applyNodeUpdate p n
    let g' := { g with nodes := updateFirstNode g.nodes nodeId (applyNodeUpdate p) }
    if saveValid g' then
      if contentChanged p then
        if embedOk then (g', .ok updated) else (g', .error .embedFailed)
      else
        (g', .ok updated)
    else
      (g, .error .validationFailed)

/-- A temporary node stored on a chat message (`message.nodes`). -/
structure TempNode where
  label : Option String
  x : Option Int
  y : Option Int
  deriving Repr, DecidableEq

/-- The slice of a `Message` document used by `importNodes`. -/
structure KMessage where
  messageId : String
  user : String
  isImported : Bool
  nodes : List TempNode
  deriving Repr, DecidableEq

/-- `tn.label ? [tn.label] : []`. -/
def tempLabelArr (tn : TempNode) : List String :=
  match tn.label with
  | none => []
  | some s => if s = "" then [] else [s]

/-- `importNodes(userId, { messageId })`: the `message` argument is the
result of `Message.findOne({ messageId, user: userId })`.  Checks the
`isImported` idempotency flag, maps the temporary nodes into graph nodes
(`content` falls back to the literal default when the label is falsy),
pushes them, marks the message imported, saves both documents, then embeds
all new nodes in one batched call.  `newIds` are the `_id`s Mongo assigns. -/
def importNodes (embedOk : Bool) (newIds : List String) (g : KGraphDoc)
    (message : Option KMessage) :
    (KGraphDoc × Option KMessage) × Except KError (List KNode) :=
  match message with
  | none => ((g, none), .error .messageNotFound)
  | some m =>
    if m.isImported then ((g, some m), .error .alreadyImported)
    else if m.nodes.isEmpty then ((g, some m), .error .noTempNodes)
    else
      let newNodes := m.nodes.enum.map (fun q =>
        { id := newIds.getD q.1 ""
          content := jsOrString q.2.label "새 노드"
          label := tempLabelArr q.2
          x := jsOrInt q.2.x 0
          y := jsOrInt q.2.y 0
          source_message_id := none
          source_conversation_id := none : KNode })
      let g' := { g with nodes := g.nodes ++ newNodes }
      let m' := { m with isImported := true }
      if saveValid g' then
        if embedOk then ((g', some m'), .ok newNodes)
        else ((g', some m'), .error .embedFailed)
      else
        ((g, some m), .error .validationFailed)

/-- First store update of `deleteNodes`:
`$pull: { nodes: { _id: { $in: convertedIds } } }`. -/
def pullNodesStep (g : KGraphDoc) (ids : List String) : KGraphDoc :=
  { g with nodes := g.nodes.filter (fun n => !(ids.contains n.id)) }

/-- Whether an edge references one of the given ids as source or target. -/
def edgeRefs (ids : List String) (e : KEdge) : Bool :=
  ids.contains e.source || ids.contains e.target

/-- Second store update of `deleteNodes`:
`$pull: { edges: { $or: [{source: {$in: idStrings}}, {target: {$in: idStrings}}] } }`. -/
def pullEdgesStep (g : KGraphDoc) (ids : List String) : KGraphDoc :=
  { g with edges := g.edges.filter (fun e => !(edgeRefs ids e)) }

/-- `deleteNodes(userId, { nodeIds })`: reject an empty id array, pull the
nodes in one update, pull the referencing edges in a second update, then ask
the embedding service to delete the vectors. -/
def deleteNodes (embedOk : Bool) (g : KGraphDoc) (nodeIds : List String) :
    KGraphDoc × Except KError Nat :=
  if nodeIds.isEmpty then (g, .error .nodeIdsRequired)
  else
    let g1 := pullNodesStep g nodeIds
    let g2 := pullEdgesStep g1 nodeIds
    if embedOk then (g2, .ok nodeIds.length) else (g2, .error .embedFailed)

/-- `e.source === source && e.target === target`. -/
def isPair (s t : String) (e : KEdge) : Bool :=
  e.source == s && e.target == t

/-- `if (label && !edge.label.includes(label)) edge.label.push(label)`. -/
def appendEdgeLabel (l : Option String) (e : KEdge) : KEdge :=
  match l with
  | none => e
  | some lab =>
    if lab != "" && !(e.label.contains lab) then
      { e with label := e.label ++ [lab] }
    else e

/-- `graph.edges.find(...)` returns the first matching subdocument; mutating
it updates the first matching element of the array. -/
def appendLabelFirst (edges : List KEdge) (s t : String) (l : Option String) :
    List KEdge :=
  match edges with
  | [] => []
  | e :: rest =>
    if isPair s t e then appendEdgeLabel l e :: rest
    else e :: appendLabelFirst rest s t l

/-- `label ? [label] : []` on the new-edge branch of `createEdge`. -/
def newEdgeLabel (l : Option String) : List String :=
  match l with
  | none => []
  | some lab => if lab = "" then [] else [lab]

/-- `createEdge(userId, { source, target, label })`: the (source, target)
pair is the edge identity — append the label to an existing pair edge, or
push a new edge; save; then post the edge to the embedding service.  There
is no check on `source`/`target` beyond the schema, and no self-loop
check. -/
def createEdge (embedOk : Bool) (newId : String) (g : KGraphDoc)
    (source target : String) (label : Option String) :
    KGraphDoc × Except KError KEdge :=
  match g.edges.find? (isPair source target) with
  | some e0 =>
    let e := appendEdgeLabel label e0
    let g' := { g with edges := appendLabelFirst g.edges source target label }
    if saveValid g' then
      if embedOk then (g', .ok e) else (g', .error .embedFailed)
    else
      (g, .error .validationFailed)
  | none =>
    let newEdge : KEdge :=
      { id := newId, source := source, target := target
        label := newEdgeLabel label }
    let g' := { g with edges := g.edges ++ [newEdge] }
    if saveValid g' then
      if embedOk then (g', .ok newEdge) else (g', .error .embedFailed)
    else
      (g, .error .validationFailed)

/-- `getOrCreateGraphDoc(userId)`: reject a falsy userId, return the user's
document from the store, or create and persist an empty one. -/
def getOrCreateGraphDoc (userId : String) (store : Option KGraphDoc) :
    Option KGraphDoc × Except KError KGraphDoc :=
  if userId = "" then (store, .error .userIdRequired)
  else
    match store with
    | some g => (some g, .ok g)
    | none =>
      let g : KGraphDoc := { userId := userId, nodes := [], edges := [] }
      (some g, .ok g)

/-- `getGraph(userId)`: read (upserting on first access) and return the node
and edge arrays. -/
def getGraph (userId : String) (store : Option KGraphDoc) :
    Option KGraphDoc × Except KError (List KNode × List KEdge) :=
  match getOrCreateGraphDoc userId store with
  | (store', .ok g) => (store', .ok (g.nodes, g.edges))
  | (store', .error e) => (store', .error e)

/-- Running a sequence of `createEdge` calls for one (source, target) pair;
each call is (embedOk, newId, label).  The stored document after a call is
its first component whether or not the call returned an error. -/
def runCreateEdges (g : KGraphDoc) (s t : String)
    (calls : List (Bool × String × Option String)) : KGraphDoc :=
  calls.foldl (fun acc c => (createEdge c.1 c.2.1 acc s t c.2.2).1) g

/-- The label of one call as the code sees it: `""` and absent labels are
falsy and are never appended. -/
def truthyLabel (l : Option String) : Option String :=
  match l with
  | none => none
  | some lab => if lab = "" then none else some lab

/-- All (truthy) labels passed over a sequence of calls, in call order. -/
def passedLabels (calls : List (Bool × String × Option String)) : List String :=
  calls.filterMap (fun c => truthyLabel c.2.2)

/-- Set-union of a list of labels into an accumulator, keeping first-seen
order. -/
def unionInto (acc : List String) (ls : List String) : List String :=
  ls.foldl (fun a l => if a.contains l then a else a ++ [l]) acc

/-- Set-union of a list of labels in first-seen order. -/
def firstSeenUnion (ls : List String) : List String :=
  unionInto [] ls

/-! Concrete fixtures used by counterexamples and witnesses. -/

/-- An empty graph document for user `u`. -/
def gEmpty : KGraphDoc :=
  { userId := "u", nodes := [], edges := [] }

/-- A node with provenance `source_message_id = "m1"`. -/
def nodeM1 : KNode :=
  { id := "n1", content := "c", label := [], x := 0, y := 0
    source_message_id := some "m1", source_conversation_id := none }

/-- A graph holding just `nodeM1`. -/
def gProv : KGraphDoc :=
  { userId := "u", nodes := [nodeM1], edges := [] }

/-- A graph with nodes `a`, `b` and one edge `a → b`. -/
def gAB : KGraphDoc :=
  { userId := "u"
    nodes := [{ id := "a", content := "A", label := [], x := 0, y := 0
                source_message_id := none, source_conversation_id := none },
              { id := "b", content := "B", label := [], x := 0, y := 0
                source_message_id := none, source_conversation_id := none }]
    edges := [{ id := "e1", source := "a", target := "b", label := ["r"] }] }

/-- An already-imported message carrying one temporary node. -/
def msgImported : KMessage :=
  { messageId := "m1", user := "u", isImported := true
    nodes := [{ label := some "idea", x := none, y := none }] }

/-! ## Claim theorems -/

/-- Claim C1 (code bug): when the embedding-service call fails, `createNode`
returns an error, yet the freshly inserted node is still present in a
subsequent `getGraph` — the GraphStore insertion is *not* rolled back,
contradicting the code's own rollback comment and the spec. -/
theorem createNode_embed_failure_persists_node :
    (createNode false "n1" gEmpty
      { label := .str "idea", x := some 1, y := some 2, content := some "hello"
        source_message_id := none, source_conversation_id := none }).2
        = .error .embedFailed ∧
    (getGraph "u" (some (createNode false "n1" gEmpty
      { label := .str "idea", x := some 1, y := some 2, content := some "hello"
        source_message_id := none, source_conversation_id := none }).1)).2
        = .ok ([{ id := "n1", content := "hello", label := ["idea"], x := 1, y := 2
                  source_message_id := none, source_conversation_id := none }], []) := by
  decide

/-- Claim C2 counterexample: passing the label `""` is passing a label, but
the code's truthiness check drops it — one call with label `""` yields a
pair edge whose label list is `[]`, not the first-seen union `[""]` of the
labels passed. -/
theorem createEdge_empty_label_dropped :
    ((runCreateEdges gEmpty "a" "b" [(true, "e1", some "")]).edges.filter
        (isPair "a" "b")
      = [{ id := "e1", source := "a", target := "b", label := [] }]) ∧
    ¬ (∀ e ∈ (runCreateEdges gEmpty "a" "b" [(true, "e1", some "")]).edges.filter
          (isPair "a" "b"), e.label = [""]) := by
  decide

/-- Claim C3 counterexample: `deleteNodes` issues two separate store
updates, not one atomic step — after the first update (`pullNodesStep`) the
node `a` is gone while the edge `a → b` still dangles; only the second
update (`pullEdgesStep`) removes it. -/
theorem deleteNodes_intermediate_dangling :
    ((pullNodesStep gAB ["a"]).nodes.all (fun n => n.id != "a") = true) ∧
    ((pullNodesStep gAB ["a"]).edges
      = [{ id := "e1", source := "a", target := "b", label := ["r"] }]) ∧
    ((deleteNodes true gAB ["a"]).1
      = pullEdgesStep (pullNodesStep gAB ["a"]) ["a"]) := by
  decide

/-- Claim C4 counterexample: `createEdge("a","a")` — a self-loop — is not
rejected: it succeeds and the self-loop edge is stored (there is no
self-loop check and no configuration flag in the code). -/
theorem createEdge_self_loop_accepted :
    ((createEdge true "e1" gEmpty "a" "a" (some "x")).2
      = .ok { id := "e1", source := "a", target := "a", label := ["x"] }) ∧
    ((createEdge true "e1" gEmpty "a" "a" (some "x")).1.edges
      = [{ id := "e1", source := "a", target := "a", label := ["x"] }]) := by
  decide

/-- Claim C5: a second `importNodes` call for an already-imported message is
rejected with the already-imported (Conflict) error and leaves both the
graph (in particular its node count) and the message unchanged. -/
theorem importNodes_already_imported_rejected (embedOk : Bool)
    (newIds : List String) (g : KGraphDoc) (m : KMessage)
    (h : m.isImported = true) :
    importNodes embedOk newIds g (some m)
      = ((g, some m), .error .alreadyImported) := by
  simp [importNodes, h]

/-- Witness for C5 at a concrete already-imported message. -/
theorem importNodes_already_imported_rejected_witness :
    importNodes true ["x1"] gEmpty (some msgImported)
      = ((gEmpty, some msgImported), .error .alreadyImported) :=
  importNodes_already_imported_rejected true ["x1"] gEmpty msgImported rfl

/-- Claim C6 counterexample: `updateNode` overwrites a provenance field when
the payload provides it — the node created with `source_message_id = "m1"`
ends up with `source_message_id = "m2"` after a successful update. -/
theorem updateNode_overwrites_provenance :
    ((updateNode true gProv "n1"
        { label := .undef, x := none, y := none, content := none
          source_message_id := some "m2", source_conversation_id := none }).1.nodes.map
        (fun n => n.source_message_id) = [some "m2"]) ∧
    (isOkB (updateNode true gProv "n1"
        { label := .undef, x := none, y := none, content := none
          source_message_id := some "m2", source_conversation_id := none }).2 = true) ∧
    nodeM1.source_message_id = some "m1" := by
  decide

/-- Claim C9 counterexample: whitespace-only content is accepted — there is
no trim, so `createNode` with content `" "` succeeds and the node is
stored. -/
theorem createNode_whitespace_content_accepted :
    ((createNode true "n1" gEmpty
        { label := .str "idea", x := none, y := none, content := some " "
          source_message_id := none, source_conversation_id := none }).2
      = .ok { id := "n1", content := " ", label := ["idea"], x := 0, y := 0
              source_message_id := none, source_conversation_id := none }) ∧
    ((createNode true "n1" gEmpty
        { label := .str "idea", x := none, y := none, content := some " "
          source_message_id := none, source_conversation_id := none }).1.nodes
      = [{ id := "n1", content := " ", label := ["idea"], x := 0, y := 0
           source_message_id := none, source_conversation_id := none }]) := by
  decide

/-- Claim C9 (amended): a creation request whose content is missing or the
empty string fails Mongoose validation and adds no node: the call errors and
the stored graph is unchanged. -/
theorem createNode_rejects_empty_content (embedOk : Bool) (newId : String)
    (g : KGraphDoc) (p : NodePayload)
    (h : p.content = none ∨ p.content = some "") :
    createNode embedOk newId g p = (g, .error .validationFailed) := by
  have hc : jsOrString p.content "" = "" := by
    rcases h with h | h <;> simp [jsOrString, h]
  simp [createNode, saveValid, List.all_append, nodeValid, hc]

/-- Witness for C9 (amended) at the empty-string content. -/
theorem createNode_rejects_empty_content_witness :
    createNode true "n1" gEmpty
      { label := .undef, x := none, y := none, content := some ""
        source_message_id := none, source_conversation_id := none }
      = (gEmpty, .error .validationFailed) :=
  createNode_rejects_empty_content true "n1" gEmpty _ (Or.inr rfl)

/-- Claim C10: for a valid userId with no existing graph document,
`getGraph` succeeds rather than failing: it persists an empty graph document
as a side effect of the read and returns empty node and edge lists. -/
theorem getGraph_upserts_empty_graph (userId : String) (h : userId ≠ "") :
    getGraph userId none
      = (some { userId := userId, nodes := [], edges := [] }, .ok ([], [])) := by
  simp [getGraph, getOrCreateGraphDoc, h]

/-- Witness for C10 at a concrete user. -/
theorem getGraph_upserts_empty_graph_witness :
    getGraph "u1" none
      = (some { userId := "u1", nodes := [], edges := [] }, .ok ([], [])) :=
  getGraph_upserts_empty_graph "u1" (by decide)

/-! ## Helper lemmas -/

/-- Members of a filtered list satisfy the filter predicate, so filtering
again changes nothing. -/
theorem filter_filter_self {α : Type} (p : α → Bool) (l : List α) :
    (l.filter p).filter p = l.filter p :=
  List.filter_eq_self.mpr (fun _ ha => (List.mem_filter.mp ha).2)

/-- Every member of a filtered list satisfies the predicate. -/
theorem all_filter_self {α : Type} (p : α → Bool) (l : List α) :
    (l.filter p).all p = true := by
  rw [List.all_eq_true]
  intro a ha
  exact (List.mem_filter.mp ha).2

/-- The head of a nonempty filtered list is the first match of the
underlying list. -/
theorem find?_head_of_filter {α : Type} (p : α → Bool) (l : List α)
    (a : α) (rest : List α) (h : l.filter p = a :: rest) :
    l.find? p = some a := by
  induction l generalizing rest with
  | nil => simp at h
  | cons x xs ih =>
    by_cases hx : p x = true
    · rw [List.filter_cons_of_pos hx] at h
      injection h with h1 h2
      rw [List.find?_cons_of_pos _ hx, h1]
    · rw [List.filter_cons_of_neg (by simpa using hx)] at h
      rw [List.find?_cons_of_neg _ (by simpa using hx)]
      exact ih _ h

/-- `appendEdgeLabel` never changes the source. -/
theorem appendEdgeLabel_source (l : Option String) (e : KEdge) :
    (appendEdgeLabel l e).source = e.source := by
  cases l with
  | none => rfl
  | some lab => simp only [appendEdgeLabel]; split <;> rfl

/-- `appendEdgeLabel` never changes the target. -/
theorem appendEdgeLabel_target (l : Option String) (e : KEdge) :
    (appendEdgeLabel l e).target = e.target := by
  cases l with
  | none => rfl
  | some lab => simp only [appendEdgeLabel]; split <;> rfl

/-- `appendEdgeLabel` preserves the (source, target) identity. -/
theorem isPair_appendEdgeLabel (s t : String) (l : Option String) (e : KEdge) :
    isPair s t (appendEdgeLabel l e) = isPair s t e := by
  simp [isPair, appendEdgeLabel_source, appendEdgeLabel_target]

/-- `appendEdgeLabel` preserves schema validity of the edge. -/
theorem edgeValid_appendEdgeLabel (l : Option String) (e : KEdge) :
    edgeValid (appendEdgeLabel l e) = edgeValid e := by
  simp [edgeValid, appendEdgeLabel_source, appendEdgeLabel_target]

/-- `appendEdgeLabel` rewrites the edge as a pure label update, with the new
label list given by the first-seen union step. -/
theorem appendEdgeLabel_as_union (l : Option String) (e : KEdge) :
    appendEdgeLabel l e
      = { e with label := unionInto e.label (truthyLabel l).toList } := by
  cases l with
  | none => simp [appendEdgeLabel, truthyLabel, unionInto]
  | some lab =>
    by_cases hlab : lab = ""
    · simp [appendEdgeLabel, truthyLabel, hlab, unionInto]
    · by_cases hc : lab ∈ e.label
      · simp [appendEdgeLabel, truthyLabel, hlab, hc, unionInto, List.foldl]
      · simp [appendEdgeLabel, truthyLabel, hlab, hc, unionInto, List.foldl]

/-- If a list of edges has exactly one (s,t) edge, appending a label to the
first match updates exactly that edge. -/
theorem appendLabelFirst_filter (s t : String) (l : Option String)
    (edges : List KEdge) (e : KEdge)
    (h : edges.filter (isPair s t) = [e]) :
    (appendLabelFirst edges s t l).filter (isPair s t)
      = [appendEdgeLabel l e] := by
  induction edges with
  | nil => simp at h
  | cons x xs ih =>
    by_cases hx : isPair s t x = true
    · rw [List.filter_cons_of_pos hx] at h
      have hxe : x = e := by
        have := (List.cons.injEq ..).mp h
        exact this.1
      have hrest : xs.filter (isPair s t) = [] := by
        have := (List.cons.injEq ..).mp h
        exact this.2
      rw [show appendLabelFirst (x :: xs) s t l = appendEdgeLabel l x :: xs
            from by simp [appendLabelFirst, hx]]
      rw [List.filter_cons_of_pos (by rw [isPair_appendEdgeLabel]; exact hx),
        hrest, hxe]
    · rw [List.filter_cons_of_neg (by simpa using hx)] at h
      rw [show appendLabelFirst (x :: xs) s t l
            = x :: appendLabelFirst xs s t l from by simp [appendLabelFirst, hx]]
      rw [List.filter_cons_of_neg (by simpa using hx)]
      exact ih h

/-- Appending a label to the first match keeps every edge schema-valid. -/
theorem appendLabelFirst_all_valid (s t : String) (l : Option String)
    (edges : List KEdge) (h : edges.all edgeValid = true) :
    (appendLabelFirst edges s t l).all edgeValid = true := by
  induction edges with
  | nil => exact h
  | cons x xs ih =>
    rw [List.all_cons, Bool.and_eq_true] at h
    by_cases hx : isPair s t x = true
    · simp [appendLabelFirst, hx, List.all_cons, edgeValid_appendEdgeLabel,
        h.1, h.2]
    · simp [appendLabelFirst, hx, List.all_cons, h.1, ih h.2]

/-- Appending a label to the first match preserves the existence of an (s,t)
edge. -/
theorem appendLabelFirst_any (s t : String) (l : Option String)
    (edges : List KEdge) (h : edges.any (isPair s t) = true) :
    (appendLabelFirst edges s t l).any (isPair s t) = true := by
  induction edges with
  | nil => simp at h
  | cons x xs ih =>
    rw [List.any_cons, Bool.or_eq_true] at h
    by_cases hx : isPair s t x = true
    · simp [appendLabelFirst, hx, List.any_cons, isPair_appendEdgeLabel]
    · rcases h with h | h
      · exact absurd h hx
      · simp [appendLabelFirst, hx, List.any_cons, ih h]

/-- The labels passed by a sequence of calls decompose call by call. -/
theorem passedLabels_cons (c : Bool × String × Option String)
    (cs : List (Bool × String × Option String)) :
    passedLabels (c :: cs) = (truthyLabel c.2.2).toList ++ passedLabels cs := by
  simp only [passedLabels, List.filterMap_cons]
  cases truthyLabel c.2.2 <;> simp

/-- `unionInto` consumes its label list one block at a time. -/
theorem unionInto_append (acc : List String) (xs ys : List String) :
    unionInto acc (xs ++ ys) = unionInto (unionInto acc xs) ys := by
  simp [unionInto, List.foldl_append]

/-- The new-edge label list is the union step applied to the empty list. -/
theorem newEdgeLabel_as_union (l : Option String) :
    newEdgeLabel l = unionInto [] (truthyLabel l).toList := by
  cases l with
  | none => rfl
  | some lab =>
    by_cases hlab : lab = "" <;>
      simp [newEdgeLabel, truthyLabel, hlab, unionInto, List.foldl]

/-- When an (s,t) edge exists and the save validates, `createEdge` commits
the appended-label edge array, whether or not the embedding call succeeds. -/
theorem createEdge_state_pair (b : Bool) (nid : String) (g : KGraphDoc)
    (s t : String) (l : Option String) (e0 : KEdge)
    (hfind : g.edges.find? (isPair s t) = some e0)
    (hval : saveValid { g with edges := appendLabelFirst g.edges s t l } = true) :
    (createEdge b nid g s t l).1
      = { g with edges := appendLabelFirst g.edges s t l } := by
  cases b <;> simp [createEdge, hfind, hval]

/-- When no (s,t) edge exists and the save validates, `createEdge` commits
the pushed new edge, whether or not the embedding call succeeds. -/
theorem createEdge_state_new (b : Bool) (nid : String) (g : KGraphDoc)
    (s t : String) (l : Option String)
    (hfind : g.edges.find? (isPair s t) = none)
    (hval : saveValid { g with edges := g.edges
        ++ [{ id := nid, source := s, target := t, label := newEdgeLabel l }] } = true) :
    (createEdge b nid g s t l).1
      = { g with edges := g.edges
          ++ [{ id := nid, source := s, target := t, label := newEdgeLabel l }] } := by
  cases b <;> simp [createEdge, hfind, hval]

/-- Invariant of repeated `createEdge` calls on one (s,t) pair: a valid
graph with exactly one (s,t) edge keeps exactly one (s,t) edge, and its
label list accumulates the first-seen union of the truthy labels passed. -/
theorem runCreateEdges_invariant (s t : String)
    (calls : List (Bool × String × Option String)) :
    ∀ (g : KGraphDoc) (e : KEdge),
      saveValid g = true →
      g.edges.filter (isPair s t) = [e] →
      saveValid (runCreateEdges g s t calls) = true ∧
      (runCreateEdges g s t calls).edges.filter (isPair s t)
        = [{ e with label := unionInto e.label (passedLabels calls) }] := by
  induction calls with
  | nil =>
    intro g e hval hfil
    refine ⟨hval, ?_⟩
    simpa [runCreateEdges, passedLabels, unionInto] using hfil
  | cons c cs ih =>
    intro g e hval hfil
    have hfind : g.edges.find? (isPair s t) = some e :=
      find?_head_of_filter _ _ _ _ hfil
    have hvparts : g.nodes.all nodeValid = true ∧ g.edges.all edgeValid = true := by
      have hv := hval
      simp only [saveValid, Bool.and_eq_true] at hv
      exact hv
    have hval' : saveValid
        { g with edges := appendLabelFirst g.edges s t c.2.2 } = true := by
      simp only [saveValid, Bool.and_eq_true]
      exact ⟨hvparts.1, appendLabelFirst_all_valid _ _ _ _ hvparts.2⟩
    have hstate : (createEdge c.1 c.2.1 g s t c.2.2).1
        = { g with edges := appendLabelFirst g.edges s t c.2.2 } :=
      createEdge_state_pair c.1 c.2.1 g s t c.2.2 e hfind hval'
    have hfil' : ({ g with edges := appendLabelFirst g.edges s t c.2.2 }
        : KGraphDoc).edges.filter (isPair s t)
        = [appendEdgeLabel c.2.2 e] :=
      appendLabelFirst_filter s t c.2.2 g.edges e hfil
    have hrun : runCreateEdges g s t (c :: cs)
        = runCreateEdges (createEdge c.1 c.2.1 g s t c.2.2).1 s t cs := by
      simp [runCreateEdges]
    rw [hrun, hstate]
    have hrec := ih _ (appendEdgeLabel c.2.2 e) hval' hfil'
    refine ⟨hrec.1, ?_⟩
    rw [hrec.2, appendEdgeLabel_as_union, passedLabels_cons, unionInto_append]

/-- Claim C2 (amended): for distinct non-empty ids s ≠ t, any non-empty
sequence of `createEdge` calls for (s,t) starting from a valid graph with no
(s,t) edge leaves exactly one edge for the pair, whose label list is the
set union of all *non-empty* labels ever passed, in first-seen order (the
code's truthiness check silently drops an empty-string label). -/
theorem createEdge_pair_unique_label_union (g : KGraphDoc) (s t : String)
    (calls : List (Bool × String × Option String))
    (hval : saveValid g = true) (hs : s ≠ "") (ht : t ≠ "") (hst : s ≠ t)
    (hnone : g.edges.filter (isPair s t) = []) (hcalls : calls ≠ []) :
    ∃ eid, (runCreateEdges g s t calls).edges.filter (isPair s t)
      = [{ id := eid, source := s, target := t
           label := firstSeenUnion (passedLabels calls) }] := by
  cases calls with
  | nil => exact absurd rfl hcalls
  | cons c cs =>
    have hfind : g.edges.find? (isPair s t) = none := by
      rw [List.find?_eq_none]
      intro x hx
      intro hpx
      have : x ∈ g.edges.filter (isPair s t) := List.mem_filter.mpr ⟨hx, hpx⟩
      rw [hnone] at this
      simp at this
    have hvparts : g.nodes.all nodeValid = true ∧ g.edges.all edgeValid = true := by
      have hv := hval
      simp only [saveValid, Bool.and_eq_true] at hv
      exact hv
    have hval1 : saveValid { g with edges := g.edges
        ++ [{ id := c.2.1, source := s, target := t, label := newEdgeLabel c.2.2 }] }
        = true := by
      simp only [saveValid, Bool.and_eq_true, List.all_append, List.all_cons,
        List.all_nil, Bool.and_true]
      refine ⟨hvparts.1, hvparts.2, ?_⟩
      simp [edgeValid, hs, ht]
    have hstate : (createEdge c.1 c.2.1 g s t c.2.2).1
        = { g with edges := g.edges
            ++ [{ id := c.2.1, source := s, target := t, label := newEdgeLabel c.2.2 }] } :=
      createEdge_state_new c.1 c.2.1 g s t c.2.2 hfind hval1
    have hfil1 : ({ g with edges := g.edges
        ++ [{ id := c.2.1, source := s, target := t, label := newEdgeLabel c.2.2 }] }
        : KGraphDoc).edges.filter (isPair s t)
        = [{ id := c.2.1, source := s, target := t, label := newEdgeLabel c.2.2 }] := by
      simp only [List.filter_append, hnone, List.nil_append]
      simp [isPair]
    have hrun : runCreateEdges g s t (c :: cs)
        = runCreateEdges (createEdge c.1 c.2.1 g s t c.2.2).1 s t cs := by
      simp [runCreateEdges]
    have hrec := runCreateEdges_invariant s t cs _ _ hval1 hfil1
    refine ⟨c.2.1, ?_⟩
    rw [hrun, hstate, hrec.2]
    rw [firstSeenUnion, passedLabels_cons, unionInto_append, ← newEdgeLabel_as_union]

/-- Witness for C2 (amended) over a concrete three-call sequence with a
repeated label. -/
theorem createEdge_pair_unique_label_union_witness :
    ∃ eid, (runCreateEdges gEmpty "a" "b"
        [(true, "e1", some "x"), (true, "e2", some "y"),
         (true, "e3", some "x")]).edges.filter (isPair "a" "b")
      = [{ id := eid, source := "a", target := "b"
           label := firstSeenUnion (passedLabels
             [(true, "e1", some "x"), (true, "e2", some "y"),
              (true, "e3", some "x")]) }] :=
  createEdge_pair_unique_label_union gEmpty "a" "b"
    [(true, "e1", some "x"), (true, "e2", some "y"), (true, "e3", some "x")]
    (by decide) (by decide) (by decide) (by decide) (by decide) (by decide)

/-- Claim C3 (amended): `deleteNodes` removes the listed nodes in one store
update and then, in a *second, separate* store update, removes every edge
whose source or target is in the list; once the call completes no node with
a deleted id and no edge referencing a deleted id remains. -/
theorem deleteNodes_removes_then_cascades (embedOk : Bool) (g : KGraphDoc)
    (ids : List String) :
    ((deleteNodes embedOk g ids).1
        = pullEdgesStep (pullNodesStep g ids) ids) ∧
    ((deleteNodes embedOk g ids).1).nodes.all
        (fun n => !(ids.contains n.id)) = true ∧
    ((deleteNodes embedOk g ids).1).edges.all
        (fun e => !(edgeRefs ids e)) = true := by
  by_cases hi : ids.isEmpty = true
  · have hids : ids = [] := by simpa [List.isEmpty_iff] using hi
    subst hids
    refine ⟨?_, ?_, ?_⟩
    · simp [deleteNodes, pullNodesStep, pullEdgesStep, edgeRefs]
    · simp [deleteNodes]
    · simp [deleteNodes, edgeRefs]
  · have hi' : ids.isEmpty = false := by simpa using hi
    have hstate : (deleteNodes embedOk g ids).1
        = pullEdgesStep (pullNodesStep g ids) ids := by
      cases embedOk <;> simp [deleteNodes, hi']
    refine ⟨hstate, ?_, ?_⟩
    · rw [hstate]
      exact all_filter_self _ _
    · rw [hstate]
      exact all_filter_self _ _

/-- With a working embedding service, `createEdge` on non-empty endpoint
ids always succeeds — no check that the endpoints exist as nodes — and the
resulting graph contains an (s,t) edge. -/
theorem createEdge_ok_and_pair (g : KGraphDoc) (nid s t : String)
    (l : Option String) (hval : saveValid g = true)
    (hs : s ≠ "") (ht : t ≠ "") :
    isOkB (createEdge true nid g s t l).2 = true ∧
    ((createEdge true nid g s t l).1).edges.any (isPair s t) = true := by
  have hvparts : g.nodes.all nodeValid = true ∧ g.edges.all edgeValid = true := by
    have hv := hval
    simp only [saveValid, Bool.and_eq_true] at hv
    exact hv
  cases hfind : g.edges.find? (isPair s t) with
  | some e0 =>
    have hval' : saveValid
        { g with edges := appendLabelFirst g.edges s t l } = true := by
      simp only [saveValid, Bool.and_eq_true]
      exact ⟨hvparts.1, appendLabelFirst_all_valid _ _ _ _ hvparts.2⟩
    have hany : g.edges.any (isPair s t) = true := by
      rw [List.any_eq_true]
      exact ⟨e0, List.mem_of_find?_eq_some hfind,
        List.find?_some hfind⟩
    refine ⟨?_, ?_⟩
    · simp [createEdge, hfind, hval', isOkB]
    · have : (createEdge true nid g s t l).1
          = { g with edges := appendLabelFirst g.edges s t l } :=
        createEdge_state_pair true nid g s t l e0 hfind hval'
      rw [this]
      exact appendLabelFirst_any _ _ _ _ hany
  | none =>
    have hval1 : saveValid { g with edges := g.edges
        ++ [{ id := nid, source := s, target := t, label := newEdgeLabel l }] }
        = true := by
      simp only [saveValid, Bool.and_eq_true, List.all_append, List.all_cons,
        List.all_nil, Bool.and_true]
      refine ⟨hvparts.1, hvparts.2, ?_⟩
      simp [edgeValid, hs, ht]
    refine ⟨?_, ?_⟩
    · simp [createEdge, hfind, hval1, isOkB]
    · have : (createEdge true nid g s t l).1
          = { g with edges := g.edges
              ++ [{ id := nid, source := s, target := t, label := newEdgeLabel l }] } :=
        createEdge_state_new true nid g s t l hfind hval1
      rw [this]
      simp [List.any_append, isPair]

/-- Claim C4 (amended): a self-loop `createEdge(a, a)` is *not* rejected:
for any valid graph and non-empty id `a` it succeeds (there is no
`BadRequest` and no configuration flag) and leaves an (a,a) edge in the
graph. -/
theorem createEdge_self_loop_succeeds (g : KGraphDoc) (newId a : String)
    (l : Option String) (hval : saveValid g = true) (ha : a ≠ "") :
    isOkB (createEdge true newId g a a l).2 = true ∧
    ((createEdge true newId g a a l).1).edges.any (isPair a a) = true :=
  createEdge_ok_and_pair g newId a a l hval ha ha

/-- Witness for C4 (amended) at a concrete graph and id. -/
theorem createEdge_self_loop_succeeds_witness :
    isOkB (createEdge true "e9" gAB "a" "a" (some "x")).2 = true ∧
    ((createEdge true "e9" gAB "a" "a" (some "x")).1).edges.any
      (isPair "a" "a") = true :=
  createEdge_self_loop_succeeds gAB "e9" "a" (some "x") (by decide) (by decide)

/-- Claim C7 (amended): `createEdge` performs no endpoint-existence check —
it succeeds for arbitrary non-empty endpoint ids, existing or not, so edges
referencing nonexistent nodes are reachable — while node deletion does
remove every edge referencing a deleted id within the same `deleteNodes`
call. -/
theorem createEdge_unchecked_endpoints_delete_cascades :
    (∀ (g : KGraphDoc) (nid s t : String) (l : Option String),
        saveValid g = true → s ≠ "" → t ≠ "" →
        isOkB (createEdge true nid g s t l).2 = true) ∧
    (∀ (embedOk : Bool) (g : KGraphDoc) (ids : List String),
        ((deleteNodes embedOk g ids).1).edges.all
          (fun e => !(edgeRefs ids e)) = true) := by
  constructor
  · intro g nid s t l hval hs ht
    exact (createEdge_ok_and_pair g nid s t l hval hs ht).1
  · intro b g ids
    by_cases hi : ids.isEmpty = true
    · have hids : ids = [] := by simpa [List.isEmpty_iff] using hi
      subst hids
      simp [deleteNodes, edgeRefs]
    · have hi' : ids.isEmpty = false := by simpa using hi
      have hstate : (deleteNodes b g ids).1
          = pullEdgesStep (pullNodesStep g ids) ids := by
        cases b <;> simp [deleteNodes, hi']
      rw [hstate]
      exact all_filter_self _ _

/-- Witness for C7 (amended): a dangling edge is accepted on an empty
graph, and deletion drops the edge referencing the deleted node. -/
theorem createEdge_unchecked_endpoints_delete_cascades_witness :
    isOkB (createEdge true "e7" gEmpty "p" "q" (some "x")).2 = true ∧
    ((deleteNodes true gAB ["a"]).1).edges.all
      (fun e => !(edgeRefs ["a"] e)) = true :=
  ⟨createEdge_unchecked_endpoints_delete_cascades.1 gEmpty "e7" "p" "q"
      (some "x") (by decide) (by decide) (by decide),
    createEdge_unchecked_endpoints_delete_cascades.2 true gAB ["a"]⟩

/-- Claim C8: `deleteNodes` with a non-empty id list reports success even
when ids are absent (missing ids are silently ignored), running it twice
yields the same stored graph as running it once, and when no node or edge
matches the ids at all the stored graph is left completely unchanged. -/
theorem deleteNodes_idempotent (g : KGraphDoc) (ids : List String)
    (h : ids ≠ []) :
    (deleteNodes true g ids).2 = .ok ids.length ∧
    (deleteNodes true (deleteNodes true g ids).1 ids).1
      = (deleteNodes true g ids).1 ∧
    (g.nodes.all (fun n => !(ids.contains n.id)) = true →
      g.edges.all (fun e => !(edgeRefs ids e)) = true →
      (deleteNodes true g ids).1 = g) := by
  have hi : ids.isEmpty = false := by
    cases ids with
    | nil => exact absurd rfl h
    | cons x xs => rfl
  refine ⟨by simp [deleteNodes, hi], ?_, ?_⟩
  · simp only [deleteNodes, hi, Bool.false_eq_true, if_false, if_true,
      pullNodesStep, pullEdgesStep]
    simp [filter_filter_self]
  · intro hn he
    simp only [deleteNodes, hi, Bool.false_eq_true, if_false, if_true,
      pullNodesStep, pullEdgesStep]
    have h1 : g.nodes.filter (fun n => !(ids.contains n.id)) = g.nodes :=
      List.filter_eq_self.mpr (by rw [List.all_eq_true] at hn; exact hn)
    have h2 : g.edges.filter (fun e => !(edgeRefs ids e)) = g.edges :=
      List.filter_eq_self.mpr (by rw [List.all_eq_true] at he; exact he)
    rw [h1, h2]

/-- Witness for C8 at a concrete graph and an absent id. -/
theorem deleteNodes_idempotent_witness :
    (deleteNodes true gAB ["zzz"]).2 = .ok 1 ∧
    (deleteNodes true (deleteNodes true gAB ["zzz"]).1 ["zzz"]).1
      = (deleteNodes true gAB ["zzz"]).1 ∧
    (gAB.nodes.all (fun n => !((["zzz"] : List String).contains n.id)) = true →
      gAB.edges.all (fun e => !(edgeRefs ["zzz"] e)) = true →
      (deleteNodes true gAB ["zzz"]).1 = gAB) :=
  deleteNodes_idempotent gAB ["zzz"] (by decide)

/-- Every element of `updateFirstNode nodes nid f` is either an untouched
element of `nodes` or `f` applied to an element of `nodes`. -/
theorem mem_updateFirstNode {nodes : List KNode} {nid : String}
    {f : KNode → KNode} {n' : KNode}
    (h : n' ∈ updateFirstNode nodes nid f) :
    n' ∈ nodes ∨ ∃ n, n ∈ nodes ∧ n' = f n := by
  induction nodes with
  | nil => simp [updateFirstNode] at h
  | cons x xs ih =>
    by_cases hx : (x.id == nid) = true
    · rw [show updateFirstNode (x :: xs) nid f = f x :: xs from by
        simp [updateFirstNode, hx]] at h
      rcases List.mem_cons.mp h with h | h
      · exact Or.inr ⟨x, List.mem_cons_self x xs, h⟩
      · exact Or.inl (List.mem_cons_of_mem x h)
    · rw [show updateFirstNode (x :: xs) nid f = x :: updateFirstNode xs nid f
        from by simp [updateFirstNode, hx]] at h
      rcases List.mem_cons.mp h with h | h
      · exact Or.inl (h ▸ List.mem_cons_self x xs)
      · rcases ih h with h | ⟨n, hn, hfn⟩
        · exact Or.inl (List.mem_cons_of_mem x h)
        · exact Or.inr ⟨n, List.mem_cons_of_mem x hn, hfn⟩

/-- The partial update never changes a node's id. -/
theorem applyNodeUpdate_id (p : NodePayload) (n : KNode) :
    (applyNodeUpdate p n).id = n.id := rfl

/-- When the payload omits `source_message_id`, the update keeps it. -/
theorem applyNodeUpdate_smi (p : NodePayload) (n : KNode)
    (h : p.source_message_id = none) :
    (applyNodeUpdate p n).source_message_id = n.source_message_id := by
  simp [applyNodeUpdate, h]

/-- When the payload omits `source_conversation_id`, the update keeps it. -/
theorem applyNodeUpdate_sci (p : NodePayload) (n : KNode)
    (h : p.source_conversation_id = none) :
    (applyNodeUpdate p n).source_conversation_id
      = n.source_conversation_id := by
  simp [applyNodeUpdate, h]

/-- Claim C6 (amended): `updateNode` never changes a node's id, and it
leaves the provenance fields unchanged whenever the update payload omits
them (in particular for coordinate updates); a payload that *does* provide
`source_message_id` or `source_conversation_id` overwrites them.  Every node
stored after the call traces back to a stored node with the same id and,
under the omission hypotheses, the same provenance. -/
theorem updateNode_preserves_id_and_omitted_provenance (embedOk : Bool)
    (g : KGraphDoc) (nodeId : String) (p : NodePayload)
    (h1 : p.source_message_id = none) (h2 : p.source_conversation_id = none) :
    ∀ n' ∈ ((updateNode embedOk g nodeId p).1).nodes,
      ∃ n, n ∈ g.nodes ∧ n'.id = n.id ∧
        n'.source_message_id = n.source_message_id ∧
        n'.source_conversation_id = n.source_conversation_id := by
  intro n' hn'
  cases hM : findNode g.nodes nodeId with
  | none =>
    rw [show (updateNode embedOk g nodeId p).1 = g from by
      simp [updateNode, hM]] at hn'
    exact ⟨n', hn', rfl, rfl, rfl⟩
  | some n0 =>
    cases hv : saveValid
        { g with nodes := updateFirstNode g.nodes nodeId (applyNodeUpdate p) } with
    | false =>
      rw [show (updateNode embedOk g nodeId p).1 = g from by
        cases embedOk <;> simp [updateNode, hM, hv]] at hn'
      exact ⟨n', hn', rfl, rfl, rfl⟩
    | true =>
      rw [show (updateNode embedOk g nodeId p).1
          = { g with nodes := updateFirstNode g.nodes nodeId (applyNodeUpdate p) }
        from by
          cases embedOk <;> cases hcc : contentChanged p <;>
            simp [updateNode, hM, hv, hcc]] at hn'
      rcases mem_updateFirstNode hn' with h | ⟨n, hn, hfn⟩
      · exact ⟨n', h, rfl, rfl, rfl⟩
      · exact ⟨n, hn, hfn ▸ applyNodeUpdate_id p n,
          hfn ▸ applyNodeUpdate_smi p n h1, hfn ▸ applyNodeUpdate_sci p n h2⟩

/-- Witness for C6 (amended): a pure coordinate update of `nodeM1` keeps
its id and provenance. -/
theorem updateNode_preserves_id_and_omitted_provenance_witness :
    ∃ n, n ∈ gProv.nodes ∧
      ({ id := "n1", content := "c", label := [], x := 5, y := 6
         source_message_id := some "m1", source_conversation_id := none }
        : KNode).id = n.id ∧
      ({ id := "n1", content := "c", label := [], x := 5, y := 6
         source_message_id := some "m1", source_conversation_id := none }
        : KNode).source_message_id = n.source_message_id ∧
      ({ id := "n1", content := "c", label := [], x := 5, y := 6
         source_message_id := some "m1", source_conversation_id := none }
        : KNode).source_conversation_id = n.source_conversation_id :=
  updateNode_preserves_id_and_omitted_provenance true gProv "n1"
    { label := .undef, x := some 5, y := some 6, content := none
      source_message_id := none, source_conversation_id := none }
    rfl rfl
    { id := "n1", content := "c", label := [], x := 5, y := 6
      source_message_id := some "m1", source_conversation_id := none }
    (by decide)

/-- Claim C7 counterexample: on a graph with no nodes at all, `createEdge`
succeeds and stores an edge whose endpoints reference nonexistent nodes —
the invariant that every edge's endpoints currently exist is violated in a
reachable state. -/
theorem createEdge_accepts_nonexistent_endpoints :
    ((createEdge true "e1" gEmpty "a" "b" (some "x")).2
      = .ok { id := "e1", source := "a", target := "b", label := ["x"] }) ∧
    ((createEdge true "e1" gEmpty "a" "b" (some "x")).1.edges
      = [{ id := "e1", source := "a", target := "b", label := ["x"] }]) ∧
    (createEdge true "e1" gEmpty "a" "b" (some "x")).1.nodes = [] := by
  decide
